import Mathlib

/-!
Verification of `youtube_comment_downloader_simple.py`.

We shallowly embed the Python source: JSON values become an inductive
`JSON` type, Python dicts become insertion-ordered association lists with
last-write-wins semantics, generators become functions returning the list
of yielded values together with the exception (if any) that aborted them,
and fallible subscript/attribute accesses become `Except String`.
-/

/-- Untyped JSON-like value, the data the Python code manipulates
(`None` is `null`; Python dicts are modelled as ordered field lists). -/
inductive JSON where
  | null : JSON
  | bool : Bool → JSON
  | num : Int → JSON
  | str : String → JSON
  | arr : List JSON → JSON
  | obj : List (String × JSON) → JSON

/-- Python truthiness test (`if not x`) on the JSON-like values the code
tests: `None`, `{}`, `[]`, `""`, `0` and `False` are falsy. -/
def pyFalsy : JSON → Bool
  | JSON.null => true
  | JSON.bool b => !b
  | JSON.num n => n == 0
  | JSON.str s => s == ""
  | JSON.arr xs => xs.isEmpty
  | JSON.obj fs => fs.isEmpty

/-- First binding of key `k` in an object (`none` on a non-object or a
missing key). -/
def objGet? (j : JSON) (k : String) : Option JSON :=
  match j with
  | JSON.obj fs => (fs.find? (fun f => f.1 == k)).map (·.2)
  | _ => none

/-- Python `d.get(k, default)`. -/
def objGetD (j : JSON) (k : String) (d : JSON) : JSON :=
  (objGet? j k).getD d

/-- Python `k in d` on a dict value. -/
def objHasKey (j : JSON) (k : String) : Bool :=
  match j with
  | JSON.obj fs => fs.any (fun f => f.1 == k)
  | _ => false

/-- View a JSON value as a Python list (the code only applies this to
values that are lists). -/
def asList : JSON → List JSON
  | JSON.arr xs => xs
  | _ => []

/-- Python subscript `o[k]`: `KeyError` when `k` is absent.  (A non-dict
receiver raises in Python as well; we fold that into the same error.) -/
def pyGet (o : JSON) (k : String) : Except String JSON :=
  match objGet? o k with
  | some v => Except.ok v
  | none => Except.error ("KeyError: " ++ k)

/-- Require a JSON string, as Python string operations (`.strip`,
dict keys, `in`) do; anything else raises. -/
def pyStr : JSON → Except String String
  | JSON.str s => Except.ok s
  | _ => Except.error "TypeError: expected str"

/-- Python `a or b` on strings (empty string is falsy). -/
def pyOrStr (a b : String) : String :=
  if a = "" then b else a

/-- The whitespace characters Python `str.strip()` removes (ASCII part). -/
def pyIsSpace (c : Char) : Bool :=
  c == ' ' || c == '\t' || c == '\n' || c == '\r' || c == '\x0b' || c == '\x0c'

/-- Python `s.strip()`: remove leading and trailing whitespace. -/
def pyStrip (s : String) : String :=
  String.mk (((s.data.dropWhile pyIsSpace).reverse.dropWhile pyIsSpace).reverse)

/-- Python `s.startswith(pre)`. -/
def pyStartsWith (s pre : String) : Bool :=
  pre.data.isPrefixOf s.data

/-- Insert into a Python dict model: replace in place if the key exists
(value of the last write wins), else append, preserving insertion order. -/
def pyDictInsert (d : List (String × JSON)) (k : String) (v : JSON) :
    List (String × JSON) :=
  if d.any (fun e => e.1 == k) then
    d.map (fun e => if e.1 == k then (k, v) else e)
  else
    d ++ [(k, v)]

/-- Build a Python dict from a list of key/value pairs (dict
comprehension semantics). -/
def pyDictOfList (ps : List (String × JSON)) : List (String × JSON) :=
  ps.foldl (fun d p => pyDictInsert d p.1 p.2) []

/-- Python dict lookup `d[k]` as an option. -/
def pyDictGet? (d : List (String × JSON)) (k : String) : Option JSON :=
  (d.find? (fun e => e.1 == k)).map (·.2)

theorem sizeOf_json_pos (j : JSON) : 0 < sizeOf j := by
  cases j <;> simp

theorem sum_map_sizeOf_le (xs : List JSON) :
    (xs.map sizeOf).sum ≤ sizeOf xs := by
  induction xs with
  | nil => simp
  | cons x xs ih =>
    have : sizeOf (x :: xs) = 1 + sizeOf x + sizeOf xs := by simp
    simp only [List.map_cons, List.sum_cons]
    omega

theorem sum_map_sizeOf_arr_lt (xs : List JSON) :
    (xs.map sizeOf).sum < sizeOf (JSON.arr xs) := by
  have h := sum_map_sizeOf_le xs
  have : sizeOf (JSON.arr xs) = 1 + sizeOf xs := by simp
  omega

theorem sum_map_sizeOf_obj_pushed_lt (key : String)
    (fs : List (String × JSON)) :
    (((fs.filterMap
      (fun f => if f.1 = key then none else some f.2)).map sizeOf).sum) <
      sizeOf (JSON.obj fs) := by
  induction fs with
  | nil => simp
  | cons f fs ih =>
    have hobj : sizeOf (JSON.obj (f :: fs)) =
        1 + (1 + sizeOf f + sizeOf fs) := by simp
    have hobj' : sizeOf (JSON.obj fs) = 1 + sizeOf fs := by simp
    have hf : sizeOf f = 1 + sizeOf f.1 + sizeOf f.2 := by
      obtain ⟨a, b⟩ := f; simp
    by_cases h : f.1 = key
    · simp [List.filterMap_cons, h]
      omega
    · simp [List.filterMap_cons, h]
      omega

/-- The `search_dict` work-stack loop (source lines 188–201): pop the top
item; if it is a dict, yield each value whose key equals `search_key` and
push every other value; if it is a list, push all of its elements.  The
head of the Lean list is the top of the Python stack (Python pushes and
pops at the end of its list), so pushing a run of values in order reverses
them.  Yields of one popped dict precede everything discovered later. -/
def searchLoop (search_key : String) (stack : List JSON) : List JSON :=
  match stack with
  | [] => []
  | JSON.obj fields :: rest =>
    (fields.filterMap
      (fun f => if f.1 = search_key then some f.2 else none)) ++
    searchLoop search_key
      ((fields.filterMap
        (fun f => if f.1 = search_key then none else some f.2)).reverse
        ++ rest)
  | JSON.arr xs :: rest => searchLoop search_key (xs.reverse ++ rest)
  | current :: rest => searchLoop search_key rest
termination_by (stack.map sizeOf).sum
decreasing_by
  all_goals simp only [List.map_append, List.sum_append, List.map_reverse,
    List.sum_reverse, List.map_cons, List.sum_cons, dite_eq_ite]
  · have h1 := sum_map_sizeOf_obj_pushed_lt search_key fields
    omega
  · have h1 := sum_map_sizeOf_arr_lt xs
    omega
  all_goals
    have h2 := sizeOf_json_pos current
    omega

/-- `search_dict(partial, search_key)`: run the loop on the singleton
stack holding the input tree. -/
def search_dict (tree : JSON) (search_key : String) : List JSON :=
  searchLoop search_key [tree]

/-- Specification-side helper: every value bound to `key` anywhere in the
tree, at any depth inside objects or arrays (the claim's "every value
found under that key anywhere in the tree"). -/
def valuesUnderKey (key : String) : JSON → List JSON
  | JSON.obj fs =>
    fs.attach.flatMap
      (fun f =>
        (if f.1.1 = key then [f.1.2] else []) ++ valuesUnderKey key f.1.2)
  | JSON.arr xs => xs.attach.flatMap (fun x => valuesUnderKey key x.1)
  | _ => []
decreasing_by
  · obtain ⟨⟨a, b⟩, hf⟩ := f
    have := List.sizeOf_lt_of_mem hf
    simp at this ⊢
    omega
  · obtain ⟨x, hx⟩ := x
    have := List.sizeOf_lt_of_mem hx
    simp at this ⊢
    omega

theorem flatMap_attach_fst {α β : Type} (l : List α) (g : α → List β) :
    l.attach.flatMap (fun x => g x.1) = l.flatMap g := by
  have h : l.attach.map (fun x => x.1) = l := by simp
  conv_rhs => rw [← h]
  rw [List.flatMap_map]

theorem valuesUnderKey_obj (key : String) (fs : List (String × JSON)) :
    valuesUnderKey key (JSON.obj fs) =
      fs.flatMap (fun f =>
        (if f.1 = key then [f.2] else []) ++ valuesUnderKey key f.2) := by
  rw [valuesUnderKey]
  exact flatMap_attach_fst fs
    (fun f => (if f.1 = key then [f.2] else []) ++ valuesUnderKey key f.2)

theorem valuesUnderKey_arr (key : String) (xs : List JSON) :
    valuesUnderKey key (JSON.arr xs) = xs.flatMap (valuesUnderKey key) := by
  rw [valuesUnderKey]
  exact flatMap_attach_fst xs (valuesUnderKey key)

theorem valuesUnderKey_scalar (key : String) (j : JSON)
    (h1 : ∀ fs, j ≠ JSON.obj fs) (h2 : ∀ xs, j ≠ JSON.arr xs) :
    valuesUnderKey key j = [] := by
  cases j with
  | obj fs => exact absurd rfl (h1 fs)
  | arr xs => exact absurd rfl (h2 xs)
  | null => rw [valuesUnderKey] <;> rintro _ ⟨⟩
  | bool b => rw [valuesUnderKey] <;> rintro _ ⟨⟩
  | num n => rw [valuesUnderKey] <;> rintro _ ⟨⟩
  | str s => rw [valuesUnderKey] <;> rintro _ ⟨⟩

/-- Soundness of the stack search: everything it yields really is a value
bound to the key somewhere in one of the stacked trees. -/
theorem searchLoop_sound (key : String) (stack : List JSON) :
    ∀ v ∈ searchLoop key stack, ∃ t ∈ stack, v ∈ valuesUnderKey key t := by
  induction stack using searchLoop.induct key with
  | case1 => simp [searchLoop]
  | case2 fields rest ih =>
    intro v hv
    simp only [searchLoop] at hv
    simp only [dite_eq_ite] at ih
    rcases List.mem_append.1 hv with h | h
    · rcases List.mem_filterMap.1 h with ⟨f, hf, hif⟩
      refine ⟨JSON.obj fields, List.mem_cons_self _ _, ?_⟩
      rw [valuesUnderKey_obj]
      refine List.mem_flatMap.2 ⟨f, hf, ?_⟩
      by_cases hk : f.1 = key
      · rw [if_pos hk] at hif
        injection hif with hv2
        rw [if_pos hk]
        exact List.mem_append.2 (Or.inl (by rw [hv2]; exact List.mem_singleton_self _))
      · rw [if_neg hk] at hif
        exact absurd hif (by simp)
    · obtain ⟨t, ht, hvt⟩ := ih v h
      rcases List.mem_append.1 ht with ht | ht
      · rw [List.mem_reverse] at ht
        rcases List.mem_filterMap.1 ht with ⟨f, hf, hif⟩
        by_cases hk : f.1 = key
        · rw [if_pos hk] at hif
          exact absurd hif (by simp)
        · rw [if_neg hk] at hif
          injection hif with ht2
          refine ⟨JSON.obj fields, List.mem_cons_self _ _, ?_⟩
          rw [valuesUnderKey_obj]
          exact List.mem_flatMap.2
            ⟨f, hf, List.mem_append.2 (Or.inr (by rw [ht2]; exact hvt))⟩
      · exact ⟨t, List.mem_cons_of_mem _ ht, hvt⟩
  | case3 xs rest ih =>
    intro v hv
    simp only [searchLoop] at hv
    obtain ⟨t, ht, hvt⟩ := ih v hv
    rcases List.mem_append.1 ht with ht | ht
    · rw [List.mem_reverse] at ht
      refine ⟨JSON.arr xs, List.mem_cons_self _ _, ?_⟩
      rw [valuesUnderKey_arr]
      exact List.mem_flatMap.2 ⟨t, ht, hvt⟩
    · exact ⟨t, List.mem_cons_of_mem _ ht, hvt⟩
  | case4 current rest hno hna ih =>
    intro v hv
    have hv' : v ∈ searchLoop key rest := by
      cases current with
      | obj fs => exact absurd rfl (hno fs)
      | arr xs => exact absurd rfl (hna xs)
      | null => simpa [searchLoop] using hv
      | bool b => simpa [searchLoop] using hv
      | num n => simpa [searchLoop] using hv
      | str s => simpa [searchLoop] using hv
    obtain ⟨t, ht, hvt⟩ := ih v hv'
    exact ⟨t, List.mem_cons_of_mem _ ht, hvt⟩

/-- The stack search yields nothing exactly when the key occurs nowhere
in any stacked tree. -/
theorem searchLoop_eq_nil_iff (key : String) (stack : List JSON) :
    searchLoop key stack = [] ↔ ∀ t ∈ stack, valuesUnderKey key t = [] := by
  induction stack using searchLoop.induct key with
  | case1 => simp [searchLoop]
  | case2 fields rest ih =>
    simp only [dite_eq_ite] at ih
    simp only [searchLoop]
    rw [List.append_eq_nil, ih]
    constructor
    · rintro ⟨hyield, hrest⟩
      rw [List.filterMap_eq_nil_iff] at hyield
      intro t ht
      rcases List.mem_cons.1 ht with rfl | ht
      · rw [valuesUnderKey_obj, List.flatMap_eq_nil_iff]
        intro f hf
        have hk : ¬ f.1 = key := by
          intro hk
          have h2 := hyield f hf
          rw [if_pos hk] at h2
          exact absurd h2 (by simp)
        rw [if_neg hk, List.nil_append]
        exact hrest f.2 (List.mem_append.2 (Or.inl (List.mem_reverse.2
          (List.mem_filterMap.2 ⟨f, hf, by rw [if_neg hk]⟩))))
      · exact hrest t (List.mem_append.2 (Or.inr ht))
    · intro hall
      have hobj := hall (JSON.obj fields) (List.mem_cons_self _ _)
      rw [valuesUnderKey_obj, List.flatMap_eq_nil_iff] at hobj
      constructor
      · rw [List.filterMap_eq_nil_iff]
        intro f hf
        have h2 := hobj f hf
        rw [List.append_eq_nil] at h2
        by_cases hk : f.1 = key
        · rw [if_pos hk] at h2
          exact absurd h2.1 (by simp)
        · rw [if_neg hk]
      · intro t ht
        rcases List.mem_append.1 ht with ht | ht
        · rw [List.mem_reverse] at ht
          rcases List.mem_filterMap.1 ht with ⟨f, hf, hif⟩
          by_cases hk : f.1 = key
          · rw [if_pos hk] at hif
            exact absurd hif (by simp)
          · rw [if_neg hk] at hif
            injection hif with h2
            have h3 := hobj f hf
            rw [List.append_eq_nil] at h3
            rw [← h2]
            exact h3.2
        · exact hall t (List.mem_cons_of_mem _ ht)
  | case3 xs rest ih =>
    simp only [searchLoop]
    rw [ih]
    constructor
    · intro hall t ht
      rcases List.mem_cons.1 ht with rfl | ht
      · rw [valuesUnderKey_arr, List.flatMap_eq_nil_iff]
        intro x hx
        exact hall x (List.mem_append.2 (Or.inl (List.mem_reverse.2 hx)))
      · exact hall t (List.mem_append.2 (Or.inr ht))
    · intro hall t ht
      rcases List.mem_append.1 ht with ht | ht
      · rw [List.mem_reverse] at ht
        have h2 := hall (JSON.arr xs) (List.mem_cons_self _ _)
        rw [valuesUnderKey_arr, List.flatMap_eq_nil_iff] at h2
        exact h2 t ht
      · exact hall t (List.mem_cons_of_mem _ ht)
  | case4 current rest hno hna ih =>
    have hstep : searchLoop key (current :: rest) = searchLoop key rest := by
      cases current with
      | obj fs => exact absurd rfl (hno fs)
      | arr xs => exact absurd rfl (hna xs)
      | null => simp [searchLoop]
      | bool b => simp [searchLoop]
      | num n => simp [searchLoop]
      | str s => simp [searchLoop]
    rw [hstep, ih]
    constructor
    · intro hall t ht
      rcases List.mem_cons.1 ht with rfl | ht
      · exact valuesUnderKey_scalar key t hno hna
      · exact hall t ht
    · intro hall t ht
      exact hall t (List.mem_cons_of_mem _ ht)

/-- A tree in which the key `"a"` occurs at depth 2 inside a value that is
itself bound to `"a"`. -/
def nestedKeyTree : JSON := JSON.obj [("a", JSON.obj [("a", JSON.num 1)])]

/-- C2 counterexample: `search_dict` does not yield every value found
under the key at any depth.  In `{"a": {"a": 1}}` the value `1` is bound
to `"a"` at depth 2, but the loop never descends into a matched value, so
the output is just `[{"a": 1}]` and misses `1`. -/
theorem claim_C2_counterexample :
    (JSON.num 1) ∈ valuesUnderKey "a" nestedKeyTree ∧
    search_dict nestedKeyTree "a" = [JSON.obj [("a", JSON.num 1)]] ∧
    (JSON.num 1) ∉ search_dict nestedKeyTree "a" := by
  refine ⟨?_, ?_, ?_⟩
  · rw [nestedKeyTree, valuesUnderKey_obj]
    simp [valuesUnderKey_obj]
  · simp [nestedKeyTree, search_dict, searchLoop]
  · simp [nestedKeyTree, search_dict, searchLoop]

/-- C2 (amended): for every JSON-like tree `T` and key `K`, `search_dict`
yields only values that are bound to `K` somewhere in `T`, and it yields
the empty sequence exactly when `K` occurs nowhere in `T`; in particular
it yields at least one value whenever `K` occurs somewhere, and absent
(`None`) or empty input yields the empty sequence.  (Unlike the original
claim, values of `K` nested strictly inside another value already yielded
for `K` are not themselves yielded: the loop does not descend into
matched values.) -/
theorem claim_C2_amended (T : JSON) (K : String) :
    (∀ v ∈ search_dict T K, v ∈ valuesUnderKey K T) ∧
    (search_dict T K = [] ↔ valuesUnderKey K T = []) ∧
    search_dict JSON.null K = [] ∧
    search_dict (JSON.obj []) K = [] ∧
    search_dict (JSON.arr []) K = [] := by
  refine ⟨?_, ?_, ?_, ?_, ?_⟩
  · intro v hv
    obtain ⟨t, ht, hvt⟩ := searchLoop_sound K [T] v hv
    rw [List.mem_singleton] at ht
    rw [← ht]
    exact hvt
  · have h := searchLoop_eq_nil_iff K [T]
    simpa [search_dict] using h
  · simp [search_dict, searchLoop]
  · simp [search_dict, searchLoop]
  · simp [search_dict, searchLoop]

/-- Witness for C2 (amended) at the concrete tree `{"a": {"a": 1}}`. -/
theorem claim_C2_witness :
    (JSON.obj [("a", JSON.num 1)]) ∈ valuesUnderKey "a" nestedKeyTree :=
  (claim_C2_amended nestedKeyTree "a").1 (JSON.obj [("a", JSON.num 1)])
    (by simp [nestedKeyTree, search_dict, searchLoop])

/-- Output projection built at source lines 160–177.  `votes` is the
(stripped-or-"0") like count; `replies`, `text`, `time`, `channel`,
`photo` keep the raw JSON values the code stores; `time_parsed` models
the external best-effort date parser (epoch seconds as `Int`, absent on
parse failure); `paid` is the optional payment-badge value. -/
structure CommentRecord where
  cid : String
  text : JSON
  time : JSON
  author : JSON
  channel : JSON
  votes : String
  replies : JSON
  photo : JSON
  heart : Bool
  reply : Bool
  time_parsed : Option Int
  paid : Option JSON

/-- `toolbar_state.get('heartState', '') == 'TOOLBAR_HEART_STATE_HEARTED'`
(source line 168).  In Python a non-string value compares unequal to a
string, hence the catch-all `false`. -/
def heartOf (toolbar_state : JSON) : Bool :=
  match objGetD toolbar_state "heartState" (JSON.str "") with
  | JSON.str s => s == "TOOLBAR_HEART_STATE_HEARTED"
  | _ => false

/-- The toolbar-state key of a comment entity:
`properties['toolbarStateKey']` (source line 159). -/
def toolbarKeyOf (comment : JSON) : Except String String := do
  let properties ← pyGet comment "properties"
  pyStr (← pyGet properties "toolbarStateKey")

/-- Build one `CommentRecord` from a comment entity (source lines
155–177).  `dp` models the external `dateparser` service.  A missing
mandatory key raises, exactly as the Python subscripts do; in particular
`toolbar_states[properties['toolbarStateKey']]` raises `KeyError` when
the toolbar-state key is absent from the response's toolbar map.
A non-string `publishedTime` or a failed date parse only omits
`time_parsed` (the `except AttributeError` at line 173). -/
def buildRecord (dp : String → Option Int) (payments : List (String × JSON))
    (toolbar_states : List (String × JSON)) (comment : JSON) :
    Except String CommentRecord := do
  let properties ← pyGet comment "properties"
  let cid ← pyStr (← pyGet properties "commentId")
  let author ← pyGet comment "author"
  let toolbar ← pyGet comment "toolbar"
  let tk ← pyStr (← pyGet properties "toolbarStateKey")
  let toolbar_state ←
    match pyDictGet? toolbar_states tk with
    | some v => Except.ok v
    | none => Except.error ("KeyError: " ++ tk)
  let text ← pyGet (← pyGet properties "content") "content"
  let time ← pyGet properties "publishedTime"
  let authorName ← pyGet author "displayName"
  let channel ← pyGet author "channelId"
  let votesRaw ← pyStr (← pyGet toolbar "likeCountNotliked")
  let repliesCount ← pyGet toolbar "replyCount"
  let photo ← pyGet author "avatarThumbnailUrl"
  let time_parsed :=
    match time with
    | JSON.str s => dp (pyStrip ((s.splitOn "(").headD ""))
    | _ => none
  pure { cid := cid
         text := text
         time := time
         author := authorName
         channel := channel
         votes := pyOrStr (pyStrip votesRaw) "0"
         replies := repliesCount
         photo := photo
         heart := heartOf toolbar_state
         reply := cid.data.contains '.'
         time_parsed := time_parsed
         paid := pyDictGet? payments cid }

/-- The `for comment in reversed(...)` loop body as a generator: yield
records in order until an exception aborts the iteration (then the
records already yielded stay delivered and the error propagates). -/
def processEntities (dp : String → Option Int)
    (payments toolbar_states : List (String × JSON)) :
    List JSON → List CommentRecord × Option String
  | [] => ([], none)
  | e :: rest =>
    match buildRecord dp payments toolbar_states e with
    | Except.error m => ([], some m)
    | Except.ok r =>
      let res := processEntities dp payments toolbar_states rest
      (r :: res.1, res.2)

/-- Payment-chip side payloads of one response (source lines 142–150):
badge texts keyed by surface key, re-keyed to comment ids through the
response's view-model table when any exist. -/
def paymentsOf (response : JSON) : Except String (List (String × JSON)) := do
  let surface_payloads := search_dict response "commentSurfaceEntityPayload"
  let pairs ← (surface_payloads.filter
      (fun p => objHasKey p "pdgCommentChip")).mapM
    (fun p => do
      let k ← pyStr (← pyGet p "key")
      pure (k, (search_dict p "simpleText").headD (JSON.str "")))
  let payments := pyDictOfList pairs
  if payments.isEmpty then
    pure payments
  else do
    let view_models ← (search_dict response "commentViewModel").mapM
      (fun vm => pyGet vm "commentViewModel")
    let sk_pairs ← (view_models.filter
        (fun vm => objHasKey vm "commentSurfaceKey")).mapM
      (fun vm => do
        let k ← pyStr (← pyGet vm "commentSurfaceKey")
        let cid ← pyStr (← pyGet vm "commentId")
        pure (k, JSON.str cid))
    let surface_keys := pyDictOfList sk_pairs
    pure (pyDictOfList (payments.filterMap (fun kv =>
      match pyDictGet? surface_keys kv.1 with
      | some (JSON.str cid) => some (cid, kv.2)
      | _ => none)))

/-- Toolbar-state side payloads of one response, keyed by their own
`key` field (source lines 152–153). -/
def toolbarStatesOf (response : JSON) :
    Except String (List (String × JSON)) := do
  let toolbar_payloads := search_dict response "engagementToolbarStateEntityPayload"
  let pairs ← toolbar_payloads.mapM
    (fun p => do pure (← pyStr (← pyGet p "key"), p))
  pure (pyDictOfList pairs)

/-- Records emitted for ONE response (source lines 142–179): the three
side maps are computed from this response alone, then every
`commentEntityPayload` of this response is turned into a record in
reverse discovery order.  The `Option String` is the exception (if any)
that aborted the iteration. -/
def recordsOf (dp : String → Option Int) (response : JSON) :
    List CommentRecord × Option String :=
  match paymentsOf response with
  | Except.error m => ([], some m)
  | Except.ok payments =>
    match toolbarStatesOf response with
    | Except.error m => ([], some m)
    | Except.ok toolbar_states =>
      processEntities dp payments toolbar_states
        ((search_dict response "commentEntityPayload").reverse)

theorem pyStr_ok_inv {j : JSON} {s : String}
    (h : pyStr j = Except.ok s) : j = JSON.str s := by
  cases j with
  | str t =>
    simp only [pyStr, Except.ok.injEq] at h
    rw [h]
  | null => simp [pyStr] at h
  | bool b => simp [pyStr] at h
  | num n => simp [pyStr] at h
  | arr xs => simp [pyStr] at h
  | obj fs => simp [pyStr] at h

/-- Inversion of a successful `buildRecord`: how the emitted record's
fields arise from the entity and the response-scoped maps. -/
theorem buildRecord_ok_inv (dp : String → Option Int)
    (pm ts : List (String × JSON)) (comment : JSON) (r : CommentRecord)
    (h : buildRecord dp pm ts comment = Except.ok r) :
    ∃ toolbar votesRaw tk st,
      pyGet comment "toolbar" = Except.ok toolbar ∧
      pyGet toolbar "likeCountNotliked" = Except.ok (JSON.str votesRaw) ∧
      toolbarKeyOf comment = Except.ok tk ∧
      pyDictGet? ts tk = some st ∧
      r.votes = pyOrStr (pyStrip votesRaw) "0" ∧
      r.heart = heartOf st ∧
      r.paid = pyDictGet? pm r.cid := by
  unfold buildRecord at h
  simp only [bind, Except.bind, pure, Except.pure] at h
  cases h1 : pyGet comment "properties" with
  | error m =>
    simp only [h1] at h
    exact Except.noConfusion h
  | ok properties =>
  simp only [h1] at h
  cases h2 : pyGet properties "commentId" with
  | error m =>
    simp only [h2] at h
    exact Except.noConfusion h
  | ok cidJ =>
  simp only [h2] at h
  cases h3 : pyStr cidJ with
  | error m =>
    simp only [h3] at h
    exact Except.noConfusion h
  | ok cid =>
  simp only [h3] at h
  cases h4 : pyGet comment "author" with
  | error m =>
    simp only [h4] at h
    exact Except.noConfusion h
  | ok author =>
  simp only [h4] at h
  cases h5 : pyGet comment "toolbar" with
  | error m =>
    simp only [h5] at h
    exact Except.noConfusion h
  | ok toolbar =>
  simp only [h5] at h
  cases h6 : pyGet properties "toolbarStateKey" with
  | error m =>
    simp only [h6] at h
    exact Except.noConfusion h
  | ok tkJ =>
  simp only [h6] at h
  cases h7 : pyStr tkJ with
  | error m =>
    simp only [h7] at h
    exact Except.noConfusion h
  | ok tk =>
  simp only [h7] at h
  cases h8 : pyDictGet? ts tk with
  | none =>
    simp only [h8] at h
    exact Except.noConfusion h
  | some st =>
  simp only [h8] at h
  cases h9 : pyGet properties "content" with
  | error m =>
    simp only [h9] at h
    exact Except.noConfusion h
  | ok contentObj =>
  simp only [h9] at h
  cases h10 : pyGet contentObj "content" with
  | error m =>
    simp only [h10] at h
    exact Except.noConfusion h
  | ok text =>
  simp only [h10] at h
  cases h11 : pyGet properties "publishedTime" with
  | error m =>
    simp only [h11] at h
    exact Except.noConfusion h
  | ok time =>
  simp only [h11] at h
  cases h12 : pyGet author "displayName" with
  | error m =>
    simp only [h12] at h
    exact Except.noConfusion h
  | ok authorName =>
  simp only [h12] at h
  cases h13 : pyGet author "channelId" with
  | error m =>
    simp only [h13] at h
    exact Except.noConfusion h
  | ok channel =>
  simp only [h13] at h
  cases h14 : pyGet toolbar "likeCountNotliked" with
  | error m =>
    simp only [h14] at h
    exact Except.noConfusion h
  | ok votesJ =>
  simp only [h14] at h
  cases h15 : pyStr votesJ with
  | error m =>
    simp only [h15] at h
    exact Except.noConfusion h
  | ok votesRaw =>
  simp only [h15] at h
  cases h16 : pyGet toolbar "replyCount" with
  | error m =>
    simp only [h16] at h
    exact Except.noConfusion h
  | ok repliesCount =>
  simp only [h16] at h
  cases h17 : pyGet author "avatarThumbnailUrl" with
  | error m =>
    simp only [h17] at h
    exact Except.noConfusion h
  | ok photo =>
  simp only [h17] at h
  injection h with h18
  refine ⟨toolbar, votesRaw, tk, st, rfl, ?_, ?_, h8, ?_, ?_, ?_⟩
  · rw [pyStr_ok_inv h15] at h14
    exact h14
  · unfold toolbarKeyOf
    simp only [bind, Except.bind, h1, h6, h7]
  · rw [← h18]
  · rw [← h18]
  · rw [← h18]

theorem heartOf_eq_true_iff (st : JSON) :
    heartOf st = true ↔
      objGet? st "heartState" =
        some (JSON.str "TOOLBAR_HEART_STATE_HEARTED") := by
  unfold heartOf objGetD
  cases hg : objGet? st "heartState" with
  | none => simp
  | some v => cases v <;> simp

theorem heartOf_of_missing (st : JSON)
    (h : objGet? st "heartState" = none) : heartOf st = false := by
  unfold heartOf objGetD
  rw [h]
  simp

/-- A toolbar-state payload whose heart state is the hearted value. -/
def sampleToolbarState : JSON :=
  JSON.obj [("key", JSON.str "tb1"),
            ("heartState", JSON.str "TOOLBAR_HEART_STATE_HEARTED")]

/-- A toolbar-state payload with no `heartState` key at all. -/
def plainToolbarState : JSON := JSON.obj [("key", JSON.str "tb2")]

/-- A well-formed comment entity whose raw like count is `" 5 "`
(whitespace around a digit). -/
def paddedVotesEntity : JSON :=
  JSON.obj
    [("properties", JSON.obj
        [("commentId", JSON.str "c1"),
         ("toolbarStateKey", JSON.str "tb1"),
         ("content", JSON.obj [("content", JSON.str "hi")]),
         ("publishedTime", JSON.str "1 day ago")]),
     ("author", JSON.obj
        [("displayName", JSON.str "A"),
         ("channelId", JSON.str "ch1"),
         ("avatarThumbnailUrl", JSON.str "http://x")]),
     ("toolbar", JSON.obj
        [("likeCountNotliked", JSON.str " 5 "),
         ("replyCount", JSON.num 0)])]

/-- The record the code emits for `paddedVotesEntity` against a toolbar
map binding `"tb1"` to `sampleToolbarState`. -/
def paddedVotesRecord : CommentRecord :=
  { cid := "c1"
    text := JSON.str "hi"
    time := JSON.str "1 day ago"
    author := JSON.str "A"
    channel := JSON.str "ch1"
    votes := "5"
    replies := JSON.num 0
    photo := JSON.str "http://x"
    heart := true
    reply := false
    time_parsed := none
    paid := none }

theorem buildRecord_paddedVotesEntity :
    buildRecord (fun _ => none) [] [("tb1", sampleToolbarState)]
      paddedVotesEntity = Except.ok paddedVotesRecord := by
  rfl

/-- C3 counterexample: the emitted vote count is NOT the raw like-count
string unchanged.  For the raw string `" 5 "` the code emits `"5"`,
because line 165 strips surrounding whitespace
(`toolbar['likeCountNotliked'].strip() or "0"`). -/
theorem claim_C3_counterexample :
    pyGet (JSON.obj [("likeCountNotliked", JSON.str " 5 "),
                     ("replyCount", JSON.num 0)]) "likeCountNotliked" =
      Except.ok (JSON.str " 5 ") ∧
    buildRecord (fun _ => none) [] [("tb1", sampleToolbarState)]
      paddedVotesEntity = Except.ok paddedVotesRecord ∧
    paddedVotesRecord.votes = "5" ∧
    paddedVotesRecord.votes ≠ " 5 " := by
  refine ⟨rfl, buildRecord_paddedVotesEntity, rfl, ?_⟩
  decide

/-- C3 (amended): the vote-count field is `"0"` when the raw like-count
string strips to empty (empty or whitespace-only input), and otherwise it
is the whitespace-STRIPPED raw string — not the raw string unchanged. -/
theorem claim_C3_amended (dp : String → Option Int)
    (pm ts : List (String × JSON)) (comment : JSON) (r : CommentRecord)
    (toolbar : JSON) (votesRaw : String)
    (h : buildRecord dp pm ts comment = Except.ok r)
    (ht : pyGet comment "toolbar" = Except.ok toolbar)
    (hv : pyGet toolbar "likeCountNotliked" = Except.ok (JSON.str votesRaw)) :
    (pyStrip votesRaw = "" → r.votes = "0") ∧
    (pyStrip votesRaw ≠ "" → r.votes = pyStrip votesRaw) := by
  obtain ⟨tb', vr', tk, st, ht', hv', _, _, hvotes, _, _⟩ :=
    buildRecord_ok_inv dp pm ts comment r h
  rw [ht] at ht'
  injection ht' with he
  rw [← he] at hv'
  rw [hv] at hv'
  injection hv' with he2
  injection he2 with he3
  rw [← he3] at hvotes
  constructor
  · intro hnil
    rw [hvotes, pyOrStr, if_pos hnil]
  · intro hnn
    rw [hvotes, pyOrStr, if_neg hnn]

/-- Witness for C3 (amended) at the concrete entity with raw like count
`" 5 "`. -/
theorem claim_C3_witness :
    (pyStrip " 5 " = "" → paddedVotesRecord.votes = "0") ∧
    (pyStrip " 5 " ≠ "" → paddedVotesRecord.votes = pyStrip " 5 ") :=
  claim_C3_amended (fun _ => none) [] [("tb1", sampleToolbarState)]
    paddedVotesEntity paddedVotesRecord
    (JSON.obj [("likeCountNotliked", JSON.str " 5 "),
               ("replyCount", JSON.num 0)]) " 5 "
    buildRecord_paddedVotesEntity rfl rfl

/-- C10: for every emitted record, the heart flag is true iff the
record's toolbar-state entry binds `heartState` to exactly
`TOOLBAR_HEART_STATE_HEARTED`; a toolbar-state entry lacking `heartState`
yields `heart = false` (the record is still emitted, no error). -/
theorem claim_C10_heart (dp : String → Option Int)
    (pm ts : List (String × JSON)) (comment : JSON) (r : CommentRecord)
    (tk : String) (st : JSON)
    (h : buildRecord dp pm ts comment = Except.ok r)
    (hk : toolbarKeyOf comment = Except.ok tk)
    (hst : pyDictGet? ts tk = some st) :
    (r.heart = true ↔
      objGet? st "heartState" =
        some (JSON.str "TOOLBAR_HEART_STATE_HEARTED")) ∧
    (objGet? st "heartState" = none → r.heart = false) := by
  obtain ⟨tb', vr', tk', st', _, _, hk', hst', _, hheart, _⟩ :=
    buildRecord_ok_inv dp pm ts comment r h
  rw [hk] at hk'
  injection hk' with he
  rw [← he] at hst'
  rw [hst] at hst'
  injection hst' with he2
  rw [← he2] at hheart
  constructor
  · rw [hheart]
    exact heartOf_eq_true_iff st
  · intro hmiss
    rw [hheart]
    exact heartOf_of_missing st hmiss

/-- A comment entity whose toolbar state (`"tb2"`) has no `heartState`
key. -/
def unheartedEntity : JSON :=
  JSON.obj
    [("properties", JSON.obj
        [("commentId", JSON.str "c2.r1"),
         ("toolbarStateKey", JSON.str "tb2"),
         ("content", JSON.obj [("content", JSON.str "yo")]),
         ("publishedTime", JSON.str "2 days ago")]),
     ("author", JSON.obj
        [("displayName", JSON.str "B"),
         ("channelId", JSON.str "ch2"),
         ("avatarThumbnailUrl", JSON.str "http://y")]),
     ("toolbar", JSON.obj
        [("likeCountNotliked", JSON.str ""),
         ("replyCount", JSON.num 3)])]

/-- The record the code emits for `unheartedEntity`: no `heartState` key
means `heart = false` (and an empty like count means votes `"0"`, and a
dotted id means `reply = true`). -/
def unheartedRecord : CommentRecord :=
  { cid := "c2.r1"
    text := JSON.str "yo"
    time := JSON.str "2 days ago"
    author := JSON.str "B"
    channel := JSON.str "ch2"
    votes := "0"
    replies := JSON.num 3
    photo := JSON.str "http://y"
    heart := false
    reply := true
    time_parsed := none
    paid := none }

theorem buildRecord_unheartedEntity :
    buildRecord (fun _ => none) [] [("tb2", plainToolbarState)]
      unheartedEntity = Except.ok unheartedRecord := by
  rfl

/-- Witness for C10 at a concrete record whose toolbar state lacks
`heartState`: the record is emitted with `heart = false`. -/
theorem claim_C10_witness :
    (unheartedRecord.heart = true ↔
      objGet? plainToolbarState "heartState" =
        some (JSON.str "TOOLBAR_HEART_STATE_HEARTED")) ∧
    (objGet? plainToolbarState "heartState" = none →
      unheartedRecord.heart = false) :=
  claim_C10_heart (fun _ => none) [] [("tb2", plainToolbarState)]
    unheartedEntity unheartedRecord "tb2" plainToolbarState
    buildRecord_unheartedEntity rfl rfl

/-- Target ids identifying a comment-surface region (lines 133–135). -/
def sameFeedTargets : List String :=
  ["comments-section", "engagement-panel-comments-section",
   "shorts-engagement-panel-comments-section"]

/-- `action['targetId']` (always a string on real actions; anything else
is folded to `""`, which matches no branch). -/
def targetIdOf (action : JSON) : String :=
  match objGet? action "targetId" with
  | some (JSON.str s) => s
  | _ => ""

/-- All "reload" then all "append" continuation actions of a response
(lines 129–130). -/
def actionsOf (response : JSON) : List JSON :=
  search_dict response "reloadContinuationItemsCommand" ++
  search_dict response "appendContinuationItemsAction"

/-- `action.get('continuationItems', [])` (line 132). -/
def itemsOf (action : JSON) : List JSON :=
  asList (objGetD action "continuationItems" (JSON.arr []))

/-- Endpoints the same-feed branch front-inserts for one item
(line 137): every `continuationEndpoint` found in the item. -/
def sameFeedEps (action item : JSON) : List JSON :=
  if sameFeedTargets.contains (targetIdOf action) then
    search_dict item "continuationEndpoint"
  else []

/-- The command the reply-thread branch appends for one item
(lines 138–140): the first `buttonRenderer`'s `command`. -/
def replyEps (action item : JSON) : List JSON :=
  if pyStartsWith (targetIdOf action) "comment-replies-item" &&
      objHasKey item "continuationItemRenderer" then
    [objGetD ((search_dict item "buttonRenderer").headD JSON.null)
      "command" JSON.null]
  else []

/-- Queue effect of one item of one action: same-feed endpoints go to
the FRONT (`continuations[:0] = ...`), the reply command to the BACK
(`continuations.append(...)`). -/
def processItem (action item : JSON) (continuations : List JSON) :
    List JSON :=
  sameFeedEps action item ++ continuations ++ replyEps action item

/-- The whole queue update a response performs (lines 131–140): fold
`processItem` over every item of every action. -/
def updateQueue (response : JSON) (continuations : List JSON) :
    List JSON :=
  (actionsOf response).foldl
    (fun cont action =>
      (itemsOf action).foldl
        (fun cont item => processItem action item cont) cont)
    continuations

/-- Every (action, item) pair of a response, in processing order. -/
def actionItemPairs (response : JSON) : List (JSON × JSON) :=
  (actionsOf response).flatMap
    (fun a => (itemsOf a).map (fun i => (a, i)))

/-- All same-feed continuations one response front-inserts, in the order
they end up at the front of the queue. -/
def frontEps (response : JSON) : List JSON :=
  ((actionItemPairs response).reverse).flatMap
    (fun p => sameFeedEps p.1 p.2)

/-- All reply-expansion continuations one response appends, in order. -/
def backEps (response : JSON) : List JSON :=
  (actionItemPairs response).flatMap (fun p => replyEps p.1 p.2)

/-- `continuations.pop()` (line 119): Python's `list.pop()` removes and
returns the LAST element. -/
def popBack (l : List JSON) : Option (JSON × List JSON) :=
  match l.getLast? with
  | none => none
  | some x => some (x, l.dropLast)

theorem foldl_flatMap_fold {α β γ : Type} (l : List α) (h : α → List β)
    (f : γ → β → γ) (q : γ) :
    (l.flatMap h).foldl f q =
      l.foldl (fun c a => (h a).foldl f c) q := by
  induction l generalizing q with
  | nil => simp
  | cons a l ih => simp [List.flatMap_cons, List.foldl_append, ih]

theorem foldl_sandwich {α : Type} (f g : α → List JSON) (ps : List α)
    (q : List JSON) :
    ps.foldl (fun c p => f p ++ c ++ g p) q =
      (ps.reverse.flatMap f) ++ q ++ ps.flatMap g := by
  induction ps generalizing q with
  | nil => simp
  | cons p ps ih =>
    rw [List.foldl_cons, ih]
    simp [List.reverse_cons, List.flatMap_append, List.flatMap_cons,
      List.append_assoc]

/-- The net queue effect of one response: same-feed continuations land
in front of the old queue, reply-expansion continuations behind it. -/
theorem updateQueue_structure (response : JSON) (q : List JSON) :
    updateQueue response q =
      frontEps response ++ q ++ backEps response := by
  unfold updateQueue frontEps backEps actionItemPairs
  rw [← foldl_sandwich (fun p => sameFeedEps p.1 p.2)
    (fun p => replyEps p.1 p.2)
    ((actionsOf response).flatMap
      (fun a => (itemsOf a).map (fun i => (a, i)))) q]
  rw [foldl_flatMap_fold]
  congr 1
  funext c a
  rw [List.foldl_map]
  rfl

/-- C1 (amended): the loop dequeues with `pop()` from the BACK of the
list.  Same-feed continuations are inserted at the front and
reply-expansion continuations appended at the back, so after a response
that appended at least one reply-expansion continuation, the next
dequeue returns the most recently appended reply-expansion continuation,
while every same-feed continuation (front-inserted or previously queued)
stays in the queue — the priority stated by the claim is reversed. -/
theorem claim_C1_amended (response : JSON) (q : List JSON)
    (h : backEps response ≠ []) :
    popBack (updateQueue response q) =
      some ((backEps response).getLast?.getD JSON.null,
            frontEps response ++ q ++ (backEps response).dropLast) := by
  rw [updateQueue_structure]
  obtain ⟨x, hx⟩ := Option.isSome_iff_exists.1 (List.getLast?_isSome.2 h)
  have h1 : (frontEps response ++ q ++ backEps response).getLast?
      = some x := by
    rw [List.getLast?_append, hx]
    rfl
  have hBne : (backEps response).isEmpty = false := by
    cases hB : backEps response with
    | nil => exact absurd hB h
    | cons b bs => simp
  unfold popBack
  simp only [h1]
  rw [hx]
  rw [List.dropLast_append]
  simp [hBne, List.append_assoc]

/-- An item carrying a same-feed continuation endpoint. -/
def sfItem : JSON := JSON.obj [("continuationEndpoint", JSON.str "SF")]

/-- An item carrying an unexpanded "load more replies" control. -/
def repItem : JSON :=
  JSON.obj
    [("continuationItemRenderer", JSON.obj []),
     ("buttonRenderer", JSON.obj [("command", JSON.str "REPLY")])]

/-- A reload action targeting the comments section. -/
def sfAction : JSON :=
  JSON.obj
    [("targetId", JSON.str "comments-section"),
     ("continuationItems", JSON.arr [sfItem])]

/-- An append action targeting a specific reply thread. -/
def repAction : JSON :=
  JSON.obj
    [("targetId", JSON.str "comment-replies-item-x"),
     ("continuationItems", JSON.arr [repItem])]

/-- A response that discovers one same-feed continuation AND one
reply-expansion continuation. -/
def mixedResponse : JSON :=
  JSON.obj
    [("reloadContinuationItemsCommand", sfAction),
     ("appendContinuationItemsAction", repAction)]

theorem frontEps_mixedResponse : frontEps mixedResponse = [JSON.str "SF"] := by
  simp [frontEps, actionItemPairs, actionsOf, itemsOf, sameFeedEps,
    replyEps, targetIdOf, sameFeedTargets, objGet?, objGetD, objHasKey,
    asList, mixedResponse, sfAction, repAction, sfItem, repItem,
    search_dict, searchLoop, pyStartsWith]

theorem backEps_mixedResponse : backEps mixedResponse = [JSON.str "REPLY"] := by
  simp [backEps, actionItemPairs, actionsOf, itemsOf, sameFeedEps,
    replyEps, targetIdOf, sameFeedTargets, objGet?, objGetD, objHasKey,
    asList, mixedResponse, sfAction, repAction, sfItem, repItem,
    search_dict, searchLoop, pyStartsWith]

theorem updateQueue_mixedResponse :
    updateQueue mixedResponse [] = [JSON.str "SF", JSON.str "REPLY"] := by
  rw [updateQueue_structure, frontEps_mixedResponse, backEps_mixedResponse]
  rfl

/-- Witness for C1 (amended) at the concrete mixed response. -/
theorem claim_C1_witness :
    popBack (updateQueue mixedResponse []) =
      some ((backEps mixedResponse).getLast?.getD JSON.null,
            frontEps mixedResponse ++ [] ++
              (backEps mixedResponse).dropLast) :=
  claim_C1_amended mixedResponse []
    (by rw [backEps_mixedResponse]; simp)

/-- Display value of an external error (`'服务器返回错误: ' + error`
needs a string; a non-string would raise `TypeError` — folded to ""). -/
def pyStrD : JSON → String
  | JSON.str s => s
  | _ => ""

/-- `error = next(search_dict(response, 'externalErrorMessage'), None)`
followed by Python truthiness `if error:` (lines 125–127): the platform
error value that triggers the raise, if any. -/
def externalErrorOf (response : JSON) : Option JSON :=
  match (search_dict response "externalErrorMessage").head? with
  | some e => if pyFalsy e then none else some e
  | none => none

/-- The pagination loop (source lines 118–180) as generator semantics.
`fetch` models `ajax_request` for the already-bootstrapped config
(`none` = all retries exhausted), `dp` the external date parser, `fuel`
bounds the iterations (claims instantiate it large enough).  Returns the
yielded records and the exception (if any) that aborted the loop;
`(_, none)` is a clean end of stream. -/
def runLoop (fetch : JSON → Option JSON) (dp : String → Option Int) :
    Nat → List JSON → List CommentRecord × Option String
  | 0, _ => ([], none)
  | fuel + 1, queue =>
    match popBack queue with
    | none => ([], none)
    | some (continuation, rest) =>
      match fetch continuation with
      | none => ([], none)
      | some response =>
        if pyFalsy response then ([], none)
        else
          match externalErrorOf response with
          | some e => ([], some ("服务器返回错误: " ++ pyStrD e))
          | none =>
            let q2 := updateQueue response rest
            let res := recordsOf dp response
            match res.2 with
            | some m => (res.1, some m)
            | none =>
              let more := runLoop fetch dp fuel q2
              (res.1 ++ more.1, more.2)

/-- The responses the loop actually reaches the emission step for (same
control flow as `runLoop`, collecting each truthy, error-free response
in order). -/
def responsesSeen (fetch : JSON → Option JSON) :
    Nat → List JSON → List JSON
  | 0, _ => []
  | fuel + 1, queue =>
    match popBack queue with
    | none => []
    | some (continuation, rest) =>
      match fetch continuation with
      | none => []
      | some response =>
        if pyFalsy response then []
        else
          match externalErrorOf response with
          | some _ => []
          | none =>
            response :: responsesSeen fetch fuel (updateQueue response rest)

/-- Concatenate the per-response record lists, truncating at the first
response whose own processing raised. -/
def emitJoin (dp : String → Option Int) : List JSON → List CommentRecord
  | [] => []
  | r :: rs =>
    let res := recordsOf dp r
    match res.2 with
    | none => res.1 ++ emitJoin dp rs
    | some _ => res.1

/-- C7: reconciliation is response-scoped.  Every record the pagination
loop emits arises as `recordsOf dp response` for the single response of
its own iteration — `recordsOf` computes the toolbar-state map, the
resolved-payment map and the view-model table from that response alone,
so a side payload from response A is never applied to an entity first
observed in response B. -/
theorem claim_C7_response_scoped (fetch : JSON → Option JSON)
    (dp : String → Option Int) (fuel : Nat) (queue : List JSON) :
    (runLoop fetch dp fuel queue).1 =
      emitJoin dp (responsesSeen fetch fuel queue) := by
  induction fuel generalizing queue with
  | zero => simp [runLoop, responsesSeen, emitJoin]
  | succ n ih =>
    cases hp : popBack queue with
    | none => simp [runLoop, responsesSeen, emitJoin, hp]
    | some pr =>
      obtain ⟨continuation, rest⟩ := pr
      cases hf : fetch continuation with
      | none => simp [runLoop, responsesSeen, emitJoin, hp, hf]
      | some response =>
        by_cases hfl : pyFalsy response = true
        · simp [runLoop, responsesSeen, emitJoin, hp, hf, hfl]
        · cases he : externalErrorOf response with
          | some e =>
            simp [runLoop, responsesSeen, emitJoin, hp, hf, hfl, he]
          | none =>
            cases hr : (recordsOf dp response).2 with
            | some m =>
              simp [runLoop, responsesSeen, emitJoin, hp, hf, hfl, he, hr]
            | none =>
              simp [runLoop, responsesSeen, emitJoin, hp, hf, hfl, he,
                hr, ih]

theorem externalErrorOf_eq_none_of (r : JSON)
    (h : search_dict r "externalErrorMessage" = []) :
    externalErrorOf r = none := by
  unfold externalErrorOf
  rw [h]
  rfl

/-- The (comment-free, action-free) page behind the reply-expansion
continuation. -/
def replyResponse : JSON := JSON.obj [("page2", JSON.num 2)]

/-- A network oracle: the seed continuation `"C0"` yields the mixed
response, the reply-expansion continuation `"REPLY"` yields its page,
and the same-feed continuation `"SF"` is never answered. -/
def fetchC1 (c : JSON) : Option JSON :=
  match c with
  | JSON.str s =>
    if s = "C0" then some mixedResponse
    else if s = "REPLY" then some replyResponse
    else none
  | _ => none

theorem search_err_mixedResponse :
    search_dict mixedResponse "externalErrorMessage" = [] := by
  simp [search_dict, searchLoop, mixedResponse, sfAction, repAction,
    sfItem, repItem]

theorem externalErrorOf_mixedResponse :
    externalErrorOf mixedResponse = none :=
  externalErrorOf_eq_none_of mixedResponse search_err_mixedResponse

theorem externalErrorOf_replyResponse :
    externalErrorOf replyResponse = none :=
  externalErrorOf_eq_none_of replyResponse
    (by simp [search_dict, searchLoop, replyResponse])

theorem updateQueue_replyResponse (q : List JSON) :
    updateQueue replyResponse q = q := by
  rw [updateQueue_structure]
  have h1 : frontEps replyResponse = [] := by
    simp [frontEps, actionItemPairs, actionsOf, search_dict, searchLoop,
      replyResponse]
  have h2 : backEps replyResponse = [] := by
    simp [backEps, actionItemPairs, actionsOf, search_dict, searchLoop,
      replyResponse]
  rw [h1, h2]
  simp

/-- A two-iterations-then-stop run of the loop control flow, with every
evaluation step supplied as a hypothesis. -/
theorem responsesSeen_two_steps (fetch : JSON → Option JSON)
    (queue : List JSON) (c1 : JSON) (rest1 : List JSON) (r1 : JSON)
    (c2 : JSON) (rest2 : List JSON) (r2 : JSON)
    (q2 q3 : List JSON) (c3 : JSON) (rest3 : List JSON)
    (hpop1 : popBack queue = some (c1, rest1))
    (hf1 : fetch c1 = some r1)
    (hfl1 : pyFalsy r1 = false)
    (he1 : externalErrorOf r1 = none)
    (hq2 : updateQueue r1 rest1 = q2)
    (hpop2 : popBack q2 = some (c2, rest2))
    (hf2 : fetch c2 = some r2)
    (hfl2 : pyFalsy r2 = false)
    (he2 : externalErrorOf r2 = none)
    (hq3 : updateQueue r2 rest2 = q3)
    (hpop3 : popBack q3 = some (c3, rest3))
    (hf3 : fetch c3 = none) :
    responsesSeen fetch 3 queue = [r1, r2] := by
  simp only [responsesSeen, hpop1, hf1, hfl1, he1, hq2, hpop2, hf2,
    hfl2, he2, hq3, hpop3, hf3, Bool.false_eq_true, if_false]

/-- Running the loop's own control flow: the reply-expansion page is
processed right after the mixed response, while the same-feed
continuation `"SF"` is still queued and never processed in this run. -/
theorem responsesSeen_fetchC1 :
    responsesSeen fetchC1 3 [JSON.str "C0"] =
      [mixedResponse, replyResponse] :=
  responsesSeen_two_steps fetchC1 [JSON.str "C0"] (JSON.str "C0") []
    mixedResponse (JSON.str "REPLY") [JSON.str "SF"] replyResponse
    [JSON.str "SF", JSON.str "REPLY"] [JSON.str "SF"] (JSON.str "SF") []
    rfl rfl rfl externalErrorOf_mixedResponse updateQueue_mixedResponse
    rfl rfl rfl externalErrorOf_replyResponse
    (updateQueue_replyResponse [JSON.str "SF"]) rfl rfl

/-- C1 counterexample: continuations are NOT dequeued from the front.
After a response front-inserts the same-feed continuation `"SF"` and
appends the reply-expansion continuation `"REPLY"` onto an empty queue,
the queue is `[SF, REPLY]` and `pop()` dequeues `REPLY`; running the
loop itself, the reply-expansion page is processed while the same-feed
continuation is still waiting — contradicting the claimed priority
(which would process `"SF"` first). -/
theorem claim_C1_counterexample :
    frontEps mixedResponse = [JSON.str "SF"] ∧
    backEps mixedResponse = [JSON.str "REPLY"] ∧
    updateQueue mixedResponse [] = [JSON.str "SF", JSON.str "REPLY"] ∧
    popBack [JSON.str "SF", JSON.str "REPLY"] =
      some (JSON.str "REPLY", [JSON.str "SF"]) ∧
    JSON.str "REPLY" ≠ JSON.str "SF" ∧
    responsesSeen fetchC1 3 [JSON.str "C0"] =
      [mixedResponse, replyResponse] := by
  refine ⟨frontEps_mixedResponse, backEps_mixedResponse,
    updateQueue_mixedResponse, rfl, by simp, responsesSeen_fetchC1⟩

/-- C4: if the toolbar-state key of some entity in a response is missing
from that response's toolbar-state map, the emission loop raises a
distinguishable error (never a default-filled record or a silent end):
the run's error field is set, and no record is emitted for that entity
nor for any entity after it (at most the `i` entities processed before it
have yielded records); and whenever a response's own processing raises,
the whole pagination loop aborts with exactly that error, delivering
only the records yielded before the raise. -/
theorem claim_C4_missing_toolbar (dp : String → Option Int)
    (pm ts : List (String × JSON)) (entities : List JSON)
    (i : Nat) (e : JSON) (tk : String)
    (he : entities.get? i = some e)
    (hk : toolbarKeyOf e = Except.ok tk)
    (hmiss : pyDictGet? ts tk = none) :
    (processEntities dp pm ts entities).2.isSome = true ∧
    (processEntities dp pm ts entities).1.length ≤ i ∧
    (∀ (fetch : JSON → Option JSON) (fuel : Nat) (queue : List JSON)
        (c : JSON) (rest : List JSON) (resp : JSON) (m : String),
      popBack queue = some (c, rest) → fetch c = some resp →
      pyFalsy resp = false → externalErrorOf resp = none →
      (recordsOf dp resp).2 = some m →
      runLoop fetch dp (fuel + 1) queue =
        ((recordsOf dp resp).1, some m)) := by
  have hAB : (processEntities dp pm ts entities).2.isSome = true ∧
      (processEntities dp pm ts entities).1.length ≤ i := by
    induction entities generalizing i with
    | nil => simp at he
    | cons a rest ih =>
      cases i with
      | zero =>
        rw [List.get?_cons_zero] at he
        injection he with he
        rw [← he] at hk
        cases hb : buildRecord dp pm ts a with
        | error m =>
          simp [processEntities, hb]
        | ok r =>
          obtain ⟨_, _, tk', st', _, _, hk', hst', _, _, _⟩ :=
            buildRecord_ok_inv dp pm ts a r hb
          rw [hk] at hk'
          injection hk' with he2
          rw [← he2] at hst'
          rw [hmiss] at hst'
          exact Option.noConfusion hst'
      | succ j =>
        rw [List.get?_cons_succ] at he
        obtain ⟨hsome, hlen⟩ := ih j he
        cases hb : buildRecord dp pm ts a with
        | error m =>
          simp [processEntities, hb]
        | ok r =>
          simp only [processEntities, hb]
          constructor
          · exact hsome
          · simp only [List.length_cons]
            omega
  refine ⟨hAB.1, hAB.2, ?_⟩
  intro fetch fuel queue c rest resp m hpop hfetch hfalsy herr hrec
  simp [runLoop, hpop, hfetch, hfalsy, herr, hrec]

theorem paymentsOf_of_no_surface (response : JSON)
    (h : search_dict response "commentSurfaceEntityPayload" = []) :
    paymentsOf response = Except.ok [] := by
  unfold paymentsOf
  rw [h]
  rfl

theorem toolbarStatesOf_of_none (response : JSON)
    (h : search_dict response "engagementToolbarStateEntityPayload" = []) :
    toolbarStatesOf response = Except.ok [] := by
  unfold toolbarStatesOf
  rw [h]
  rfl

theorem recordsOf_eq_of (dp : String → Option Int) (response : JSON)
    (pm ts : List (String × JSON)) (ents : List JSON)
    (hp : paymentsOf response = Except.ok pm)
    (ht : toolbarStatesOf response = Except.ok ts)
    (hs : search_dict response "commentEntityPayload" = ents) :
    recordsOf dp response = processEntities dp pm ts ents.reverse := by
  unfold recordsOf
  rw [hp, ht, hs]

/-- A response holding one comment entity and NO toolbar-state payloads:
its toolbar map is empty, so the entity's key `"tb1"` is missing. -/
def missingToolbarResponse : JSON :=
  JSON.obj [("commentEntityPayload", paddedVotesEntity)]

theorem recordsOf_missingToolbarResponse :
    recordsOf (fun _ => none) missingToolbarResponse =
      ([], some "KeyError: tb1") := by
  have hs1 : search_dict missingToolbarResponse
      "commentSurfaceEntityPayload" = [] := by
    simp [search_dict, searchLoop, missingToolbarResponse,
      paddedVotesEntity]
  have hs2 : search_dict missingToolbarResponse
      "engagementToolbarStateEntityPayload" = [] := by
    simp [search_dict, searchLoop, missingToolbarResponse,
      paddedVotesEntity]
  have hs3 : search_dict missingToolbarResponse "commentEntityPayload" =
      [paddedVotesEntity] := by
    simp [search_dict, searchLoop, missingToolbarResponse,
      paddedVotesEntity]
  rw [recordsOf_eq_of (fun _ => none) missingToolbarResponse [] []
    [paddedVotesEntity] (paymentsOf_of_no_surface _ hs1)
    (toolbarStatesOf_of_none _ hs2) hs3]
  rfl

/-- Witness for C4: one entity whose toolbar-state key `"tb1"` is absent
from an empty toolbar map — the emission errors with no record, and a
loop iteration over a response carrying that entity and no toolbar
payloads aborts with the `KeyError`. -/
theorem claim_C4_witness :
    (processEntities (fun _ => none) [] [] [paddedVotesEntity]).2.isSome
        = true ∧
    (processEntities (fun _ => none) [] [] [paddedVotesEntity]).1.length
        ≤ 0 ∧
    runLoop (fun _ => some missingToolbarResponse) (fun _ => none)
        (0 + 1) [JSON.str "C"] =
      ((recordsOf (fun _ => none) missingToolbarResponse).1,
        some "KeyError: tb1") := by
  have h := claim_C4_missing_toolbar (fun _ => none) [] []
    [paddedVotesEntity] 0 paddedVotesEntity "tb1" rfl rfl rfl
  refine ⟨h.1, h.2.1, ?_⟩
  exact h.2.2 (fun _ => some missingToolbarResponse) 0 [JSON.str "C"]
    (JSON.str "C") [] missingToolbarResponse "KeyError: tb1" rfl rfl rfl
    (externalErrorOf_eq_none_of missingToolbarResponse
      (by simp [search_dict, searchLoop, missingToolbarResponse,
        paddedVotesEntity]))
    (by rw [recordsOf_missingToolbarResponse])

/-- Outcome of one network attempt inside `ajax_request`. -/
inductive AjaxAttempt where
  | status (code : Nat) (body : JSON)
  | timeout

/-- The retry loop of `ajax_request` (source lines 66–75): `net i` is the
outcome of the i-th POST attempt; the result pairs the returned value
(`none` = fell off the end of the `for` loop with all retries exhausted)
with the number of attempts made.  Status 200 returns the parsed body,
403/413 return `{}` immediately, and a timeout or any other status
sleeps and retries. -/
def ajaxLoop (net : Nat → AjaxAttempt) (i : Nat) :
    Nat → Option JSON × Nat
  | 0 => (none, 0)
  | r + 1 =>
    match net i with
    | AjaxAttempt.status code body =>
      if code = 200 then (some body, 1)
      else if code = 403 ∨ code = 413 then (some (JSON.obj []), 1)
      else
        let res := ajaxLoop net (i + 1) r
        (res.1, res.2 + 1)
    | AjaxAttempt.timeout =>
      let res := ajaxLoop net (i + 1) r
      (res.1, res.2 + 1)

/-- `ajax_request(endpoint, ytcfg, retries, ...)`: start at attempt 0. -/
def ajax_request (net : Nat → AjaxAttempt) (retries : Nat) :
    Option JSON × Nat :=
  ajaxLoop net 0 retries

theorem ajaxLoop_all_timeout (net : Nat → AjaxAttempt)
    (h : ∀ j, net j = AjaxAttempt.timeout) :
    ∀ r i, ajaxLoop net i r = (none, r) := by
  intro r
  induction r with
  | zero => intro i; rfl
  | succ k ih =>
    intro i
    simp [ajaxLoop, h i, ih (i + 1)]

/-- C5: a 200 response returns the parsed body after one attempt; 403 and
413 return an empty dict after one attempt with no further attempt; a
timeout is retried (one more attempt is consumed and the loop moves on);
five timeouts exhaust `retries = 5` and return no result; and the
pagination loop treats a missing result — and the falsy `{}` of a
terminal status — as a clean end of stream (no records, no error), never
as an error. -/
theorem claim_C5_ajax (net : Nat → AjaxAttempt) (body : JSON) :
    (∀ i r, net i = AjaxAttempt.status 200 body →
      ajaxLoop net i (r + 1) = (some body, 1)) ∧
    (∀ i r, net i = AjaxAttempt.status 403 body →
      ajaxLoop net i (r + 1) = (some (JSON.obj []), 1)) ∧
    (∀ i r, net i = AjaxAttempt.status 413 body →
      ajaxLoop net i (r + 1) = (some (JSON.obj []), 1)) ∧
    (∀ i r, net i = AjaxAttempt.timeout →
      ajaxLoop net i (r + 1) =
        ((ajaxLoop net (i + 1) r).1, (ajaxLoop net (i + 1) r).2 + 1)) ∧
    ((∀ j, net j = AjaxAttempt.timeout) →
      ajax_request net 5 = (none, 5)) ∧
    (∀ (fetch : JSON → Option JSON) (dp : String → Option Int)
        (fuel : Nat) (queue : List JSON) (c : JSON) (rest : List JSON),
      popBack queue = some (c, rest) → fetch c = none →
      runLoop fetch dp (fuel + 1) queue = ([], none)) ∧
    (∀ (fetch : JSON → Option JSON) (dp : String → Option Int)
        (fuel : Nat) (queue : List JSON) (c : JSON) (rest : List JSON),
      popBack queue = some (c, rest) → fetch c = some (JSON.obj []) →
      runLoop fetch dp (fuel + 1) queue = ([], none)) := by
  refine ⟨?_, ?_, ?_, ?_, ?_, ?_, ?_⟩
  · intro i r h
    simp [ajaxLoop, h]
  · intro i r h
    simp [ajaxLoop, h]
  · intro i r h
    simp [ajaxLoop, h]
  · intro i r h
    simp [ajaxLoop, h]
  · intro h
    exact ajaxLoop_all_timeout net h 5 0
  · intro fetch dp fuel queue c rest hp hf
    simp [runLoop, hp, hf]
  · intro fetch dp fuel queue c rest hp hf
    simp [runLoop, hp, hf, pyFalsy]

/-- Witness for C5 at concrete attempt streams and a concrete queue. -/
theorem claim_C5_witness :
    ajax_request (fun _ => AjaxAttempt.status 200 (JSON.str "B")) 5 =
      (some (JSON.str "B"), 1) ∧
    ajax_request (fun _ => AjaxAttempt.status 403 JSON.null) 5 =
      (some (JSON.obj []), 1) ∧
    ajax_request (fun _ => AjaxAttempt.timeout) 5 = (none, 5) ∧
    runLoop (fun _ => none) (fun _ => none) 1 [JSON.str "T"] =
      ([], none) :=
  ⟨(claim_C5_ajax (fun _ => AjaxAttempt.status 200 (JSON.str "B"))
      (JSON.str "B")).1 0 4 rfl,
   (claim_C5_ajax (fun _ => AjaxAttempt.status 403 JSON.null)
      JSON.null).2.1 0 4 rfl,
   (claim_C5_ajax (fun _ => AjaxAttempt.timeout) JSON.null).2.2.2.2.1
      (fun _ => rfl),
   (claim_C5_ajax (fun _ => AjaxAttempt.timeout) JSON.null).2.2.2.2.2.1
      (fun _ => none) (fun _ => none) 0 [JSON.str "T"] (JSON.str "T") []
      rfl rfl⟩

/-- `next(search_dict(data, 'sortFilterSubMenuRenderer'), {})
.get('subMenuItems', [])` (source lines 106 and 113). -/
def subMenuItemsOf (data : JSON) : List JSON :=
  asList (objGetD
    ((search_dict data "sortFilterSubMenuRenderer").headD (JSON.obj []))
    "subMenuItems" (JSON.arr []))

/-- Sort-menu resolution with the one-call fallback (lines 106–113):
if the initial data has no sort menu, find the section-list node's
continuation endpoints, issue one AJAX call against the first (an empty
dict when there is none; `ajax` returns `JSON.null` for a `None`
result), and re-search that response. -/
def effectiveSortMenu (ajax : JSON → JSON) (data : JSON) : List JSON :=
  let sort_menu := subMenuItemsOf data
  if sort_menu.isEmpty then
    let section_list :=
      (search_dict data "sectionListRenderer").headD (JSON.obj [])
    let continuations := search_dict section_list "continuationEndpoint"
    let data2 :=
      match continuations with
      | c :: _ => ajax c
      | [] => JSON.obj []
    subMenuItemsOf data2
  else sort_menu

/-- Lines 114–116: raise `RuntimeError('无法设置排序')` when the menu is
still empty or the index is out of range, else seed the queue with the
single chosen `serviceEndpoint`. -/
def resolveSort (ajax : JSON → JSON) (data : JSON) (sort_by : Nat) :
    Except String (List JSON) :=
  let sort_menu := effectiveSortMenu ajax data
  if sort_menu.isEmpty ∨ sort_by ≥ sort_menu.length then
    Except.error "无法设置排序"
  else
    Except.ok [objGetD (sort_menu.getD sort_by JSON.null)
      "serviceEndpoint" JSON.null]

/-- C6: sort resolution fails with a distinguishable `RuntimeError`
exactly when the sort menu is still absent after the one-call fallback or
the requested index is out of range; otherwise it succeeds and seeds the
queue with the single endpoint of the chosen entry. -/
theorem claim_C6_sort (ajax : JSON → JSON) (data : JSON) (sort_by : Nat) :
    ((∃ m, resolveSort ajax data sort_by = Except.error m) ↔
      (effectiveSortMenu ajax data = [] ∨
        sort_by ≥ (effectiveSortMenu ajax data).length)) ∧
    (effectiveSortMenu ajax data ≠ [] →
      sort_by < (effectiveSortMenu ajax data).length →
      resolveSort ajax data sort_by =
        Except.ok [objGetD
          ((effectiveSortMenu ajax data).getD sort_by JSON.null)
          "serviceEndpoint" JSON.null]) := by
  constructor
  · constructor
    · intro hm
      obtain ⟨m, hm⟩ := hm
      unfold resolveSort at hm
      by_cases hc : effectiveSortMenu ajax data = [] ∨
          sort_by ≥ (effectiveSortMenu ajax data).length
      · exact hc
      · rw [if_neg (by simpa [List.isEmpty_iff] using hc)] at hm
        exact Except.noConfusion hm
    · intro hc
      refine ⟨"无法设置排序", ?_⟩
      unfold resolveSort
      rw [if_pos (by simpa [List.isEmpty_iff] using hc)]
  · intro hne hlt
    unfold resolveSort
    rw [if_neg (by simp [List.isEmpty_iff, hne]; omega)]

/-- A bootstrap data blob with a two-entry sort menu. -/
def sortMenuData : JSON :=
  JSON.obj
    [("sortFilterSubMenuRenderer", JSON.obj
        [("subMenuItems", JSON.arr
            [JSON.obj [("serviceEndpoint", JSON.str "TOP")],
             JSON.obj [("serviceEndpoint", JSON.str "NEW")]])])]

theorem effectiveSortMenu_sample :
    effectiveSortMenu (fun _ => JSON.null) sortMenuData =
      [JSON.obj [("serviceEndpoint", JSON.str "TOP")],
       JSON.obj [("serviceEndpoint", JSON.str "NEW")]] := by
  simp [effectiveSortMenu, subMenuItemsOf, search_dict, searchLoop,
    objGetD, objGet?, asList, sortMenuData]

/-- Witness for C6: with a present two-entry menu and requested index 1,
resolution succeeds and seeds the single chosen endpoint. -/
theorem claim_C6_witness :
    resolveSort (fun _ => JSON.null) sortMenuData 1 =
      Except.ok [objGetD
        ((effectiveSortMenu (fun _ => JSON.null) sortMenuData).getD 1
          JSON.null)
        "serviceEndpoint" JSON.null] :=
  (claim_C6_sort (fun _ => JSON.null) sortMenuData 1).2
    (by rw [effectiveSortMenu_sample]; simp)
    (by rw [effectiveSortMenu_sample]; simp)

/-- Result of the writing loop of `download_comments`. -/
structure DlResult where
  written : List CommentRecord
  chunks : List String
  count : Nat
  remaining : List CommentRecord

/-- Python `limit and count >= limit` (line 266): a `None` or `0` limit
is falsy and never caps. -/
def pyLimitHit (limit : Option Nat) (count : Nat) : Bool :=
  match limit with
  | none => false
  | some l => decide (l ≠ 0) && decide (count ≥ l)

/-- The `while comment:` write loop of `download_comments` (source lines
250–269).  `ser`/`serIndent` model the external `to_json` serializer
(compact / indented); the generator is modelled as the list `stream`
with `next(generator, None)` = `head?`.  Each iteration writes `',\n'`
unless first, then the (padded when pretty) serialized record; it pulls
the next record only when the limit is not yet reached, and increments
`count`. -/
def dlLoop (pretty : Bool) (ser serIndent : CommentRecord → String)
    (limit : Option Nat) (comment? : Option CommentRecord)
    (stream : List CommentRecord) (count : Nat) (first : Bool) :
    DlResult :=
  match comment? with
  | none => ⟨[], [], count, stream⟩
  | some c =>
    let chunk := (if first then [] else [",\n"]) ++
      [if pretty then "        " ++ serIndent c else ser c]
    let next? := if pyLimitHit limit count then none else stream.head?
    let stream' := if pyLimitHit limit count then stream else stream.tail
    let res :=
      dlLoop pretty ser serIndent limit next? stream' (count + 1) false
    ⟨c :: res.written, chunk ++ res.chunks, res.count, res.remaining⟩
termination_by
  stream.length + (match comment? with | some _ => 1 | none => 0)
decreasing_by
  by_cases h : pyLimitHit limit count = true
  · simp [h]
  · simp [h]
    cases stream <;> simp

/-- Result of one `download_comments` run. -/
structure DownloadResult where
  count : Nat
  output : List String
  written : List CommentRecord
  remaining : List CommentRecord

/-- `download_comments` (source lines 236–279): writes the JSON object
header, runs the write loop starting from the first pull with
`count = 1`, writes the footer, and returns `count - 1`. -/
def download_comments (pretty : Bool)
    (ser serIndent : CommentRecord → String) (limit : Option Nat)
    (stream : List CommentRecord) : DownloadResult :=
  let header :=
    ["\x7b\n",
     if pretty then "    \"comments\": [\n" else "\"comments\":[\n"]
  let res := dlLoop pretty ser serIndent limit stream.head? stream.tail 1 true
  let footer := ["\n", if pretty then "    ]\n" else "]\n", "\x7d"]
  ⟨res.count - 1, header ++ res.chunks ++ footer, res.written,
    res.remaining⟩

/-- The loop's final count always exceeds its starting count by exactly
the number of records it wrote. -/
theorem dlLoop_count (pretty : Bool) (ser serIndent : CommentRecord → String)
    (limit : Option Nat) (comment? : Option CommentRecord)
    (stream : List CommentRecord) (count : Nat) (first : Bool) :
    (dlLoop pretty ser serIndent limit comment? stream count first).count =
      count +
        (dlLoop pretty ser serIndent limit comment? stream count
          first).written.length := by
  induction comment?, stream, count, first
    using dlLoop.induct pretty ser serIndent limit with
  | case1 stream count first => simp [dlLoop]
  | case2 stream count first c nx st ih =>
    unfold_let nx st at ih
    rw [dlLoop]
    by_cases hhit : pyLimitHit limit count = true <;>
      simp [hhit] at ih ⊢ <;> omega

/-- When a nonzero limit `l` is `n` records away and the stream has at
least `n` more records, the loop writes the current record plus exactly
the next `n`, finishes with count `l + 1`, and leaves the rest of the
stream unpulled. -/
theorem dlLoop_limit_spec (pretty : Bool)
    (ser serIndent : CommentRecord → String) (l : Nat) (hl : l ≠ 0) :
    ∀ (n count : Nat), count + n = l →
    ∀ (c : CommentRecord) (stream : List CommentRecord) (first : Bool),
      n ≤ stream.length →
      (dlLoop pretty ser serIndent (some l) (some c) stream count
          first).written = c :: stream.take n ∧
      (dlLoop pretty ser serIndent (some l) (some c) stream count
          first).count = l + 1 ∧
      (dlLoop pretty ser serIndent (some l) (some c) stream count
          first).remaining = stream.drop n := by
  intro n
  induction n with
  | zero =>
    intro count hcount c stream first hlen
    have hhit : pyLimitHit (some l) count = true := by
      simp only [pyLimitHit, Bool.and_eq_true, decide_eq_true_eq]
      omega
    rw [dlLoop]
    simp [hhit, dlLoop]
    omega
  | succ k ih =>
    intro count hcount c stream first hlen
    have hmiss : pyLimitHit (some l) count = false := by
      simp only [pyLimitHit, Bool.and_eq_true, decide_eq_true_eq,
        Bool.and_eq_false_iff, decide_eq_false_iff_not]
      omega
    cases stream with
    | nil => simp at hlen
    | cons x t =>
      have hlen' : k ≤ t.length := by
        simp only [List.length_cons] at hlen
        omega
      obtain ⟨hw, hc, hr⟩ := ih (count + 1) (by omega) x t false hlen'
      rw [dlLoop]
      simp only [hmiss, Bool.false_eq_true, if_neg, ite_false,
        List.head?_cons, List.tail_cons]
      refine ⟨?_, ?_, ?_⟩
      · simp only [hw, List.take_succ_cons]
      · simp only [hc]
      · simp only [hr, List.drop_succ_cons]

/-- C8: with a positive limit `l` and a stream able to yield at least
`l` records, exactly the first `l` records are written, the reported
count is `l`, and nothing past the `l`-th record is pulled from the
generator (the rest of the stream is left intact). -/
theorem claim_C8_limit (pretty : Bool)
    (ser serIndent : CommentRecord → String) (l : Nat)
    (stream : List CommentRecord) (h1 : 1 ≤ l) (h2 : l ≤ stream.length) :
    (download_comments pretty ser serIndent (some l) stream).written =
      stream.take l ∧
    (download_comments pretty ser serIndent (some l) stream).count = l ∧
    (download_comments pretty ser serIndent (some l) stream).remaining =
      stream.drop l := by
  cases stream with
  | nil =>
    simp only [List.length_nil] at h2
    omega
  | cons x t =>
    have hl : l ≠ 0 := by omega
    have hlen : l - 1 ≤ t.length := by
      simp only [List.length_cons] at h2
      omega
    obtain ⟨hw, hc, hr⟩ :=
      dlLoop_limit_spec pretty ser serIndent l hl (l - 1) 1 (by omega)
        x t true hlen
    have hl1 : l = (l - 1) + 1 := by omega
    unfold download_comments
    simp only [List.head?_cons, List.tail_cons]
    refine ⟨?_, ?_, ?_⟩
    · rw [hw]
      conv_rhs => rw [hl1, List.take_succ_cons]
    · rw [hc]
      omega
    · rw [hr]
      conv_rhs => rw [hl1, List.drop_succ_cons]

/-- Witness for C8: a 7-record stream with limit 5. -/
theorem claim_C8_witness :
    (download_comments false (fun _ => "r") (fun _ => "r") (some 5)
        (List.replicate 7 paddedVotesRecord)).written =
      (List.replicate 7 paddedVotesRecord).take 5 ∧
    (download_comments false (fun _ => "r") (fun _ => "r") (some 5)
        (List.replicate 7 paddedVotesRecord)).count = 5 ∧
    (download_comments false (fun _ => "r") (fun _ => "r") (some 5)
        (List.replicate 7 paddedVotesRecord)).remaining =
      (List.replicate 7 paddedVotesRecord).drop 5 :=
  claim_C8_limit false (fun _ => "r") (fun _ => "r") 5
    (List.replicate 7 paddedVotesRecord) (by omega) (by simp)

/-- C9: the returned count always equals the number of records written;
on an empty feed the loop body never runs, nothing is written, the count
is 0, and the output is still the enclosing JSON object with an empty
comments array (both compact and pretty). -/
theorem claim_C9_count (pretty : Bool)
    (ser serIndent : CommentRecord → String) (limit : Option Nat)
    (stream : List CommentRecord) :
    (download_comments pretty ser serIndent limit stream).count =
      (download_comments pretty ser serIndent limit stream).written.length ∧
    (download_comments pretty ser serIndent limit []).written = [] ∧
    (download_comments pretty ser serIndent limit []).count = 0 ∧
    (download_comments false ser serIndent limit []).output =
      ["\x7b\n", "\"comments\":[\n", "\n", "]\n", "\x7d"] ∧
    (download_comments true ser serIndent limit []).output =
      ["\x7b\n", "    \"comments\": [\n", "\n", "    ]\n", "\x7d"] := by
  refine ⟨?_, ?_, ?_, ?_, ?_⟩
  · have h := dlLoop_count pretty ser serIndent limit stream.head?
      stream.tail 1 true
    unfold download_comments
    simp only []
    omega
  · simp [download_comments, dlLoop]
  · simp [download_comments, dlLoop]
  · simp [download_comments, dlLoop]
  · simp [download_comments, dlLoop]
